import Mathlib

/-!
Verification of the Darknet-to-Keras converter in `bin/convert_yad2k.py`
(repository `obj_track`).  The development shallowly embeds the pieces of
`_main` and `unique_config_sections` that the specification talks about:

* the weight-file header decode with its version-dependent "seen" width;
* the per-section weight-stream consumption and scalar counting;
* the kernel-tensor axis transpose `np.transpose(w, [2, 3, 1, 0])`;
* the config section-name uniquification pass;
* the section-by-section graph construction (conv / maxpool / avgpool /
  route / reorg / shortcut / upsample / yolo / region / net / cost /
  softmax), including the `all_layers` list, the running `prev_layer`
  tail, the `out_index` output record and the anchors side-channel file;
* the end-of-run trailing-bytes warning.

The embedding follows the non-`v2` code path of `_main` (the path with
`all_layers = []`, `prev_layer = input_layer`, `out_index = []`, and the
`pad == 1 and stride == 1` padding rule), which is the path the claims
about yolo / region / route sections exercise.
-/

/-! ## Kernel tensor transpose (convert_yad2k.py line 216) -/

/-- A 4-dimensional tensor with axis extents `d0 d1 d2 d3`. -/
def Tensor4 (α : Type) (d0 d1 d2 d3 : Nat) : Type :=
  Fin d0 → Fin d1 → Fin d2 → Fin d3 → α

/-- Embedding of `np.transpose(conv_weights, [2, 3, 1, 0])`: axis `k` of the
result is axis `[2,3,1,0][k]` of the source, so the result at index
`(x0,x1,x2,x3)` is the source at `(x3,x2,x0,x1)`.  It carries a tensor in
Darknet order `(out, in, h, w)` to Tensorflow order `(h, w, in, out)`. -/
def npTranspose2310 {α : Type} {o i h w : Nat} (T : Tensor4 α o i h w) :
    Tensor4 α h w i o :=
  fun x0 x1 x2 x3 => T x3 x2 x0 x1

/-- The inverse axis permutation `[3, 2, 0, 1]`, carrying `(h, w, in, out)`
back to `(out, in, h, w)`; used to state the round-trip property of the
specification (the source file itself only performs the forward transpose). -/
def npTranspose3201 {α : Type} {h w i o : Nat} (T : Tensor4 α h w i o) :
    Tensor4 α o i h w :=
  fun y0 y1 y2 y3 => T y2 y3 y1 y0

/-! ## Config-section uniquification (convert_yad2k.py lines 47-62)

`unique_config_sections` walks the config file line by line; a line that
starts with `[` is a section header whose bracket-stripped name is given a
`_<counter>` suffix (a per-name zero-based counter kept in a
`defaultdict(int)`), every other line is copied through unchanged.  The
embedding represents a line as either a header with its bracket-stripped
name or an opaque content line (the source never parses `key=value` text
itself; it hands that to `configparser`). -/

/-- One line of the config file: a `[...]` section-header line carrying the
bracket-stripped section name, or any other line carried through verbatim. -/
inductive CfgLine where
  | header (name : String)
  | content (text : String)
deriving DecidableEq, Repr

/-- The loop body of `unique_config_sections`: `counters` is the
`defaultdict(int)` of per-base-name occurrence counts. -/
def uniquifyLines (counters : String → Nat) : List CfgLine → List CfgLine
  | [] => []
  | CfgLine.header name :: rest =>
      CfgLine.header (name ++ "_" ++ toString (counters name)) ::
        uniquifyLines (fun s => if s = name then counters name + 1 else counters s) rest
  | CfgLine.content t :: rest =>
      CfgLine.content t :: uniquifyLines counters rest

/-- Embedding of `unique_config_sections`: all counters start at zero. -/
def unique_config_sections (lines : List CfgLine) : List CfgLine :=
  uniquifyLines (fun _ => 0) lines

/-- The section name carried by a header line, if any. -/
def headerName : CfgLine → Option String
  | CfgLine.header n => some n
  | CfgLine.content _ => none

/-- How many header lines with base name `X` a list of lines contains. -/
def occCount (X : String) : List CfgLine → Nat
  | [] => 0
  | CfgLine.header n :: rest => (if n = X then 1 else 0) + occCount X rest
  | CfgLine.content _ :: rest => occCount X rest

/-- One step of grouping lines into sections, folded from the right:
the first component collects the content lines seen since the last header,
the second the finished `(section name, content lines)` groups. -/
def parseStep (l : CfgLine) (acc : List String × List (String × List String)) :
    List String × List (String × List String) :=
  match l with
  | CfgLine.content t => (t :: acc.1, acc.2)
  | CfgLine.header n => ([], (n, acc.1) :: acc.2)

/-- Group a config into its ordered `(section name, content lines)` pairs,
the way `configparser.read_file` attributes each `key=value` line to the
closest preceding section header. -/
def parseSections (lines : List CfgLine) : List (String × List String) :=
  (lines.foldr parseStep ([], [])).2

/-! ## Weight-file header (convert_yad2k.py lines 112-126, non-v2 path) -/

/-- Little-endian value of a byte list (least significant byte first). -/
def leValue : List Nat → Nat
  | [] => 0
  | b :: bs => b + 256 * leValue bs

/-- Decode 4 little-endian bytes as a two's-complement 32-bit integer,
as `np.ndarray(dtype='int32', buffer=...)` does on a little-endian host. -/
def decodeInt32 (bs : List Nat) : Int :=
  let u := leValue bs
  if u < 2 ^ 31 then (u : Int) else (u : Int) - 2 ^ 32

/-- Decode 8 little-endian bytes as a two's-complement 64-bit integer. -/
def decodeInt64 (bs : List Nat) : Int :=
  let u := leValue bs
  if u < 2 ^ 63 then (u : Int) else (u : Int) - 2 ^ 64

/-- The decoded weight-file header of the non-v2 path: three 32-bit fields,
the "seen" counter, and the total number of header bytes consumed. -/
structure Header where
  major : Int
  minor : Int
  revision : Int
  seen : Int
  bytesConsumed : Nat
deriving DecidableEq, Repr

/-- Reduce an integer to the two's-complement 32-bit range
`[-2^31, 2^31)`, the wraparound numpy applies to every `np.int32` scalar
operation. -/
def wrap32 (x : Int) : Int :=
  (x + 2 ^ 31) % 2 ^ 32 - 2 ^ 31

/-- Embedding of the header read: 12 bytes decode `major, minor, revision`;
then `seen` is read as 8 bytes if `(major*10 + minor) >= 2 and major < 1000
and minor < 1000`, else as 4 bytes.  `major` and `minor` are `np.int32`
scalars, so `major * 10` and the following `+ minor` are computed in
wrapping 32-bit arithmetic (`wrap32`); on headers where the exact value of
`major * 10 + minor` already lies in `[-2^31, 2^31)` this coincides with
plain integer arithmetic.  A stream shorter than a requested `np.ndarray`
buffer is the `buffer is too small` failure. -/
def readHeaderV3 (s : List Nat) : Except String Header :=
  if s.length < 12 then Except.error "buffer is too small"
  else
    let major := decodeInt32 (s.take 4)
    let minor := decodeInt32 ((s.drop 4).take 4)
    let revision := decodeInt32 ((s.drop 8).take 4)
    if wrap32 (wrap32 (major * 10) + minor) ≥ 2 ∧ major < 1000 ∧ minor < 1000 then
      if s.length < 20 then Except.error "buffer is too small"
      else Except.ok ⟨major, minor, revision, decodeInt64 ((s.drop 12).take 8), 20⟩
    else
      if s.length < 16 then Except.error "buffer is too small"
      else Except.ok ⟨major, minor, revision, decodeInt32 ((s.drop 12).take 4), 16⟩

/-- A synthetic header stream with `major = 0, minor = 1, revision = 0` and
a 4-byte seen field holding 7. -/
def hdrStream01 : List Nat :=
  [0, 0, 0, 0, 1, 0, 0, 0, 0, 0, 0, 0, 7, 0, 0, 0]

/-- A synthetic header stream with `major = 2, minor = 0, revision = 0` and
an 8-byte seen field holding 9. -/
def hdrStream20 : List Nat :=
  [2, 0, 0, 0, 0, 0, 0, 0, 0, 0, 0, 0, 9, 0, 0, 0, 0, 0, 0, 0]

/-- A synthetic header stream with `major = -300000000` (little-endian
bytes `[0, 93, 30, 238]`), `minor = 0, revision = 0` and an 8-byte seen
field holding 5: `major * 10` overflows `int32` and wraps to
`+1294967296`, so the program takes the 8-byte branch even though the
exact product is far below 2. -/
def hdrStreamWrap : List Nat :=
  [0, 93, 30, 238, 0, 0, 0, 0, 0, 0, 0, 0, 5, 0, 0, 0, 0, 0, 0, 0]

/-! ## Layer graph and builder state (convert_yad2k.py lines 142-321)

A `Layer` is the term-level image of one Keras layer-application
expression; a layer node remembers the node(s) it was applied to, so the
graph topology is visible in the term.  `prev_layer` can be `None` in the
source (after a yolo section), hence `Option Layer` below. -/

/-- One constructed graph node.  `conv` records `filters`, kernel `size`,
`stride`, the computed padding mode, and `use_bias = not batch_normalize`. -/
inductive Layer where
  | input : Layer
  | zeroPad : Layer → Layer
  | conv (filters size stride : Nat) (padding : String) (useBias : Bool) :
      Layer → Layer
  | batchNorm : Layer → Layer
  | leakyReLU : Layer → Layer
  | maxPool (size stride : Nat) : Layer → Layer
  | globalAvgPool : Layer → Layer
  | concatL (inputs : List Layer) : Layer
  | spaceToDepth : Layer → Layer
  | addL : Layer → Layer → Layer
  | upSample (stride : Nat) : Layer → Layer

mutual

/-- The channel extent `K.int_shape(layer)[-1]` of a node's output: the
network input has 3 channels, a convolution outputs its filter count,
concatenation sums its inputs, space-to-depth (block 2) quadruples, and
every other node preserves its input's channel count. -/
def channels : Layer → Nat
  | Layer.input => 3
  | Layer.zeroPad src => channels src
  | Layer.conv filters _ _ _ _ _ => filters
  | Layer.batchNorm src => channels src
  | Layer.leakyReLU src => channels src
  | Layer.maxPool _ _ src => channels src
  | Layer.globalAvgPool src => channels src
  | Layer.concatL ls => channelsSum ls
  | Layer.spaceToDepth src => 4 * channels src
  | Layer.addL a _ => channels a
  | Layer.upSample _ src => channels src

/-- Sum of the channel extents of a list of nodes. -/
def channelsSum : List Layer → Nat
  | [] => 0
  | l :: ls => channels l + channelsSum ls

end

/-- The mutable state `_main` threads through the section loop:
`allLayers` is `all_layers` (entries are `none` for the yolo placeholder),
`prevLayer` is `prev_layer`, `outIndex` is `out_index`, `count` the running
scalar count, `reads` the sizes (in bytes) of the `weights_file.read`
calls issued so far in order, and `anchorsFile` the current content of the
anchors side-channel file (`none` if never written). -/
structure BuildState where
  allLayers : List (Option Layer)
  prevLayer : Option Layer
  outIndex : List Int
  count : Nat
  reads : List Nat
  anchorsFile : Option String

/-- The state just before the section loop of the non-v2 path:
`all_layers = []`, `prev_layer = input_layer`, `out_index = []`. -/
def initState : BuildState :=
  { allLayers := [], prevLayer := some Layer.input, outIndex := [],
    count := 0, reads := [], anchorsFile := none }

/-- One parsed config section, named with its uniquified section name and
carrying the keys the corresponding branch of `_main` reads from it. -/
inductive SectionDecl where
  | convolutional (name : String) (filters size stride pad : Nat)
      (activation : String) (batchNormalize : Bool)
  | maxpool (name : String) (size stride : Nat)
  | avgpool (name : String) (items : List (String × String))
  | route (name : String) (ids : List Int)
  | reorg (name : String) (stride : Nat)
  | shortcut (name : String) (fromIdx : Int) (activation : String)
  | upsample (name : String) (stride : Nat)
  | yolo (name : String) (anchors : String)
  | region (name : String) (anchors : String)
  | net (name : String)
  | cost (name : String)
  | softmax (name : String)
  | unsupported (name : String)
deriving DecidableEq, Repr

/-- Result of processing one section (or a run of sections).  An `err`
carries the builder state at the moment the Python exception is raised, so
the weight-stream cursor position at failure time stays observable. -/
inductive StepResult where
  | ok (st : BuildState)
  | err (msg : String) (st : BuildState)

/-- The state a `StepResult` carries. -/
def StepResult.state : StepResult → BuildState
  | StepResult.ok st => st
  | StepResult.err _ st => st

/-- Whether a `StepResult` is a failure. -/
def StepResult.isErr : StepResult → Bool
  | StepResult.ok _ => false
  | StepResult.err _ _ => true

/-- Python list indexing `l[i]`: a non-negative index must be below the
length, a negative index `i` addresses position `len(l) + i` and must not
reach below zero; anything else raises `IndexError`. -/
def pyIndex (n : Nat) (i : Int) : Option Nat :=
  if 0 ≤ i then
    if i < (n : Int) then some i.toNat else none
  else
    if 0 ≤ (n : Int) + i then some ((n : Int) + i).toNat else none

/-- `all_layers[i]` with Python index semantics. -/
def pyGet (l : List (Option Layer)) (i : Int) : Except String (Option Layer) :=
  match pyIndex l.length i with
  | some j =>
    match l.get? j with
    | some x => Except.ok x
    | none => Except.error "list index out of range"
  | none => Except.error "list index out of range"

/-- The list comprehension `[all_layers[i] for i in ids]`, failing on the
first out-of-range index. -/
def pyGetMany (l : List (Option Layer)) : List Int → Except String (List (Option Layer))
  | [] => Except.ok []
  | i :: is =>
    match pyGet l i with
    | Except.error e => Except.error e
    | Except.ok x =>
      match pyGetMany l is with
      | Except.error e => Except.error e
      | Except.ok xs => Except.ok (x :: xs)

/-- Extract the layers from a list of maybe-placeholder entries, `none` if
any entry is the yolo placeholder (passing `None` into a Keras merge layer
raises). -/
def allSome : List (Option Layer) → Option (List Layer)
  | [] => some []
  | some x :: rest => (allSome rest).map (fun ls => x :: ls)
  | none :: _ => none

/-- Processing of one config section, the loop body of `_main` (lines
154-321, non-v2 path).  For a convolutional section the three
`weights_file.read` calls (bias, then the batch-normalize triple when the
flag is set, then the kernel) happen before the activation check, exactly
as in the source, so a raised unsupported-activation error carries a state
whose `reads` already include that section's bytes. -/
def processSection (st : BuildState) : SectionDecl → StepResult
  | SectionDecl.convolutional name filters size stride pad activation batchNormalize =>
    match st.prevLayer with
    | none => StepResult.err "K.int_shape of None" st
    | some prev =>
      let padding := if pad = 1 ∧ stride = 1 then "same" else "valid"
      let weightsSize := size * size * channels prev * filters
      let st3 : BuildState :=
        { st with
          reads := st.reads ++ [filters * 4]
            ++ (if batchNormalize then [filters * 12] else [])
            ++ [weightsSize * 4],
          count := st.count + filters
            + (if batchNormalize then 3 * filters else 0) + weightsSize }
      if activation ≠ "leaky" ∧ activation ≠ "linear" then
        StepResult.err
          ("Unknown activation function `" ++ activation ++ "` in section " ++ name) st3
      else
        let convInput := if stride > 1 then Layer.zeroPad prev else prev
        let convLayer :=
          Layer.conv filters size stride padding (!batchNormalize) convInput
        let convLayer := if batchNormalize then Layer.batchNorm convLayer else convLayer
        if activation = "linear" then
          StepResult.ok { st3 with allLayers := st3.allLayers ++ [some convLayer],
                                   prevLayer := some convLayer }
        else
          let actLayer := Layer.leakyReLU convLayer
          StepResult.ok { st3 with allLayers := st3.allLayers ++ [some actLayer],
                                   prevLayer := some actLayer }
  | SectionDecl.maxpool _ size stride =>
    match st.prevLayer with
    | none => StepResult.err "MaxPooling2D applied to None" st
    | some prev =>
      let node := Layer.maxPool size stride prev
      StepResult.ok { st with allLayers := st.allLayers ++ [some node],
                              prevLayer := some node }
  | SectionDecl.avgpool name items =>
    if items ≠ [] then StepResult.err (name ++ " with params unsupported.") st
    else
      match st.prevLayer with
      | none => StepResult.err "GlobalAveragePooling2D applied to None" st
      | some prev =>
        let node := Layer.globalAvgPool prev
        StepResult.ok { st with allLayers := st.allLayers ++ [some node],
                                prevLayer := some node }
  | SectionDecl.route _ ids =>
    match pyGetMany st.allLayers ids with
    | Except.error e => StepResult.err e st
    | Except.ok layers =>
      match layers with
      | [] => StepResult.err "list index out of range" st
      | [l] => StepResult.ok { st with allLayers := st.allLayers ++ [l],
                                       prevLayer := l }
      | ls =>
        match allSome ls with
        | none => StepResult.err "concatenate applied to None" st
        | some ls2 =>
          let node := Layer.concatL ls2
          StepResult.ok { st with allLayers := st.allLayers ++ [some node],
                                  prevLayer := some node }
  | SectionDecl.reorg _ stride =>
    if stride ≠ 2 then StepResult.err "Only reorg with stride 2 supported." st
    else
      match st.prevLayer with
      | none => StepResult.err "Lambda applied to None" st
      | some prev =>
        let node := Layer.spaceToDepth prev
        StepResult.ok { st with allLayers := st.allLayers ++ [some node],
                                prevLayer := some node }
  | SectionDecl.shortcut _ fromIdx activation =>
    if activation ≠ "linear" then
      StepResult.err "Only linear activation supported." st
    else
      match pyGet st.allLayers fromIdx with
      | Except.error e => StepResult.err e st
      | Except.ok none => StepResult.err "Add applied to None" st
      | Except.ok (some other) =>
        match st.prevLayer with
        | none => StepResult.err "Add applied to None" st
        | some prev =>
          let node := Layer.addL other prev
          StepResult.ok { st with allLayers := st.allLayers ++ [some node],
                                  prevLayer := some node }
  | SectionDecl.upsample _ stride =>
    if stride ≠ 2 then StepResult.err "Only stride=2 supported." st
    else
      match st.prevLayer with
      | none => StepResult.err "UpSampling2D applied to None" st
      | some prev =>
        let node := Layer.upSample stride prev
        StepResult.ok { st with allLayers := st.allLayers ++ [some node],
                                prevLayer := some node }
  | SectionDecl.yolo _ anchors =>
    StepResult.ok { st with
      anchorsFile := some anchors,
      outIndex := st.outIndex ++ [(st.allLayers.length : Int) - 1],
      allLayers := st.allLayers ++ [none],
      prevLayer := none }
  | SectionDecl.region _ anchors =>
    StepResult.ok { st with anchorsFile := some anchors }
  | SectionDecl.net _ => StepResult.ok st
  | SectionDecl.cost _ => StepResult.ok st
  | SectionDecl.softmax _ => StepResult.ok st
  | SectionDecl.unsupported name =>
    StepResult.err ("Unsupported section header type: " ++ name) st

/-- The section loop: process declarations in order, stopping at the first
raised error (the exception propagates out of `_main`). -/
def runSections (st : BuildState) : List SectionDecl → StepResult
  | [] => StepResult.ok st
  | s :: rest =>
    match processSection st s with
    | StepResult.ok st2 => runSections st2 rest
    | StepResult.err m st2 => StepResult.err m st2

/-- Output resolution after the loop (lines 327-329): an empty `out_index`
falls back to `[len(all_layers) - 1]`, then the model outputs are
`[all_layers[i] for i in out_index]`; handing a `None` entry (a yolo
placeholder) to `Model` raises. -/
def resolveOutputs (st : BuildState) : Except String (List Layer) :=
  let outIdx := if st.outIndex = [] then [(st.allLayers.length : Int) - 1]
                else st.outIndex
  match pyGetMany st.allLayers outIdx with
  | Except.error e => Except.error e
  | Except.ok os =>
    match allSome os with
    | some ls => Except.ok ls
    | none => Except.error "Model output is None"

/-- What the conversion hands back on success: the final builder state, the
resolved output nodes, the fact that `model.save` ran, and the trailing
`unused weights` warning (a count of float scalars, `remaining_bytes / 4`
with Python float division) if any bytes were left unread. -/
structure Artifact where
  finalState : BuildState
  outputs : List Layer
  modelSaved : Bool
  unusedWarning : Option ℚ

/-- The tail of `_main` (lines 323-344): run the section loop, resolve the
outputs, save the model, then read the rest of the weight file and warn —
never fail — if anything was left over.  `headerLen` is the byte length of
the already-consumed header and `fileLen` the total weight-file length. -/
def runConversion (headerLen fileLen : Nat) (sections : List SectionDecl) :
    Except String Artifact :=
  match runSections initState sections with
  | StepResult.err m _ => Except.error m
  | StepResult.ok st =>
    match resolveOutputs st with
    | Except.error e => Except.error e
    | Except.ok outs =>
      let consumed := headerLen + st.reads.sum
      Except.ok
        { finalState := st, outputs := outs, modelSaved := true,
          unusedWarning :=
            if fileLen - consumed > 0
            then some (((fileLen - consumed : Nat) : ℚ) / 4) else none }

/-- The anchor list a section writes to the anchors file, if any: both the
yolo and the region branch open `{output_root}_anchors.txt` in mode `w`
(truncating) and print that section's `anchors` value. -/
def anchorsOf : SectionDecl → Option String
  | SectionDecl.yolo _ a => some a
  | SectionDecl.region _ a => some a
  | _ => none

/-- A concrete `2 × 3 × 4 × 5` tensor (all axis extents distinct, so every
axis mix-up would be caught). -/
def tensorDemo : Tensor4 Nat 2 3 4 5 :=
  fun a b c d => ((a.val * 3 + b.val) * 4 + c.val) * 5 + d.val


/-- A two-entry materialized-layer list for exercising Route resolution. -/
def routeDemoState : BuildState :=
  { allLayers := [some Layer.input, some (Layer.upSample 2 Layer.input)],
    prevLayer := some (Layer.upSample 2 Layer.input),
    outIndex := [], count := 0, reads := [], anchorsFile := none }


/-- Whether an `Except` result is a success. -/
def exceptIsOk {ε α : Type} : Except ε α → Bool
  | Except.ok _ => true
  | Except.error _ => false


/-- A one-layer builder state from which the witness yolo section is
processed. -/
def preYoloState : BuildState :=
  { allLayers := [some Layer.input], prevLayer := some Layer.input,
    outIndex := [], count := 0, reads := [], anchorsFile := none }


/-- The state after processing `[yolo]` from `preYoloState`. -/
def yoloAfterState : BuildState :=
  { allLayers := [some Layer.input, none], prevLayer := none,
    outIndex := [0], count := 0, reads := [], anchorsFile := some "10,13" }


/-- A config with two `convolutional` sections (plus a `net` section),
as in the first layers of a Darknet file. -/
def cfgDemo : List CfgLine :=
  [CfgLine.header "net", CfgLine.content "height=416",
   CfgLine.header "convolutional", CfgLine.content "filters=16",
   CfgLine.header "convolutional", CfgLine.content "filters=32"]


/-! ## Helper lemmas -/

/-- Running the section loop over a concatenation first runs the prefix;
an error in the prefix short-circuits, success continues with the suffix. -/
theorem runSections_append (st : BuildState) (l1 l2 : List SectionDecl) :
    runSections st (l1 ++ l2) =
      match runSections st l1 with
      | StepResult.ok st2 => runSections st2 l2
      | StepResult.err m st2 => StepResult.err m st2 := by
  induction l1 generalizing st with
  | nil => rfl
  | cons s rest ih =>
    simp only [List.cons_append, runSections]
    cases processSection st s with
    | ok st2 => exact ih st2
    | err m st2 => rfl

/-! ## Claim C3 -/

/-- Claim C3: the builder's transpose `[2,3,1,0]` carries a kernel tensor
read in on-disk order `(out, in, h, w)` to target order `(h, w, in, out)`
— element `(o,i,h,w)` of the source equals element `(h,w,i,o)` of the
result — and following it with the inverse transpose `[3,2,0,1]`
reproduces the original tensor for arbitrary dimensions, `h ≠ w`
included. -/
theorem claim_C3_kernel_transpose {α : Type} {o i h w : Nat}
    (T : Tensor4 α o i h w) :
    (∀ (a : Fin o) (b : Fin i) (c : Fin h) (d : Fin w),
        npTranspose2310 T c d b a = T a b c d)
  ∧ npTranspose3201 (npTranspose2310 T) = T :=
  ⟨fun _ _ _ _ => rfl, rfl⟩

/-- Concrete instance of claim C3 on `tensorDemo`. -/
theorem claim_C3_witness :
    npTranspose3201 (npTranspose2310 tensorDemo) = tensorDemo
  ∧ npTranspose2310 tensorDemo 2 3 1 0 = tensorDemo 0 1 2 3 :=
  ⟨(claim_C3_kernel_transpose tensorDemo).2,
   (claim_C3_kernel_transpose tensorDemo).1 0 1 2 3⟩

/-! ## Claim C2 -/

/-- Claim C2: after decoding the three 32-bit header integers, the reader
reads an 8-byte seen counter exactly when `(major*10 + minor) ≥ 2` and
`major < 1000` and `minor < 1000` — with `major*10 + minor` computed, as
in the program, in numpy's wrapping `int32` scalar arithmetic — and a
4-byte one otherwise.  A header with `(major, minor) = (0, 1)` selects
the 4-byte field (16 header bytes), one with `(2, 0)` selects the 8-byte
field (20 header bytes), and the overflowing header with
`major = -300000000` also selects the 8-byte field because `major * 10`
wraps to `+1294967296`. -/
theorem claim_C2_header_seen_width (s : List Nat) (hdr : Header)
    (hok : readHeaderV3 s = Except.ok hdr) :
    (wrap32 (wrap32 (hdr.major * 10) + hdr.minor) ≥ 2
        ∧ hdr.major < 1000 ∧ hdr.minor < 1000 →
        hdr.bytesConsumed = 12 + 8)
  ∧ (¬(wrap32 (wrap32 (hdr.major * 10) + hdr.minor) ≥ 2
        ∧ hdr.major < 1000 ∧ hdr.minor < 1000) →
        hdr.bytesConsumed = 12 + 4)
  ∧ readHeaderV3 hdrStream01 = Except.ok ⟨0, 1, 0, 7, 16⟩
  ∧ readHeaderV3 hdrStream20 = Except.ok ⟨2, 0, 0, 9, 20⟩
  ∧ readHeaderV3 hdrStreamWrap = Except.ok ⟨-300000000, 0, 0, 5, 20⟩ := by
  refine ⟨?_, ?_, by rfl, by rfl, by rfl⟩
  · intro hcond
    simp only [readHeaderV3] at hok
    split at hok
    · exact Except.noConfusion hok
    · split at hok
      · split at hok
        · exact Except.noConfusion hok
        · simp only [Except.ok.injEq] at hok
          subst hok
          rfl
      · split at hok
        · exact Except.noConfusion hok
        · simp only [Except.ok.injEq] at hok
          subst hok
          rename_i h12 hn h16
          exact absurd hcond hn
  · intro hncond
    simp only [readHeaderV3] at hok
    split at hok
    · exact Except.noConfusion hok
    · split at hok
      · split at hok
        · exact Except.noConfusion hok
        · simp only [Except.ok.injEq] at hok
          subst hok
          rename_i h12 hc h20
          exact absurd hc hncond
      · split at hok
        · exact Except.noConfusion hok
        · simp only [Except.ok.injEq] at hok
          subst hok
          rfl

/-- Concrete instance of claim C2: the `(major, minor) = (0, 1)` header
consumes a 4-byte seen field, and the overflowing `major = -300000000`
header consumes an 8-byte one. -/
theorem claim_C2_witness :
    (⟨0, 1, 0, 7, 16⟩ : Header).bytesConsumed = 12 + 4
  ∧ (⟨-300000000, 0, 0, 5, 20⟩ : Header).bytesConsumed = 12 + 8 :=
  ⟨(claim_C2_header_seen_width hdrStream01 ⟨0, 1, 0, 7, 16⟩ (by rfl)).2.1 (by decide),
   (claim_C2_header_seen_width hdrStreamWrap ⟨-300000000, 0, 0, 5, 20⟩ (by rfl)).1
     (by decide)⟩

/-! ## Claim C1 -/

/-- Claim C1: a convolutional section processed with a usable input of
`channels prev` channels succeeds (for a supported activation) and
consumes, in order, `filters * 4` bias bytes, then — exactly when the
batch-normalize flag is set — `filters * 12` further bytes, then
`size * size * in_channels * filters * 4` kernel bytes, incrementing the
running scalar count by `filters + (3 * filters when batch-normalize)
+ size * size * in_channels * filters`. -/
theorem claim_C1_conv_weight_consumption
    (st : BuildState) (prev : Layer)
    (name activation : String) (filters size stride pad : Nat) (bn : Bool)
    (hprev : st.prevLayer = some prev)
    (hact : activation = "linear" ∨ activation = "leaky") :
    (processSection st
        (SectionDecl.convolutional name filters size stride pad activation bn)).isErr
      = false
  ∧ (processSection st
        (SectionDecl.convolutional name filters size stride pad activation bn)).state.reads
      = st.reads ++ [filters * 4]
        ++ (if bn then [filters * 12] else [])
        ++ [size * size * channels prev * filters * 4]
  ∧ (processSection st
        (SectionDecl.convolutional name filters size stride pad activation bn)).state.count
      = st.count + filters
        + (if bn then 3 * filters else 0)
        + size * size * channels prev * filters := by
  rcases hact with h | h <;> subst h <;>
    simp only [processSection, hprev] <;>
    simp [StepResult.isErr, StepResult.state]

/-- Concrete instance of claim C1: a batch-normalized 3×3 convolution with
2 filters on the 3-channel network input reads 8 bias bytes, 24
batch-normalize bytes and 216 kernel bytes and counts 2 + 6 + 54
scalars. -/
theorem claim_C1_witness :
    (processSection initState
        (SectionDecl.convolutional "convolutional_0" 2 3 1 1 "leaky" true)).isErr
      = false
  ∧ (processSection initState
        (SectionDecl.convolutional "convolutional_0" 2 3 1 1 "leaky" true)).state.reads
      = initState.reads ++ [2 * 4]
        ++ (if true then [2 * 12] else [])
        ++ [3 * 3 * channels Layer.input * 2 * 4]
  ∧ (processSection initState
        (SectionDecl.convolutional "convolutional_0" 2 3 1 1 "leaky" true)).state.count
      = initState.count + 2
        + (if true then 3 * 2 else 0)
        + 3 * 3 * channels Layer.input * 2 :=
  claim_C1_conv_weight_consumption initState Layer.input "convolutional_0" "leaky"
    2 3 1 1 true rfl (Or.inr rfl)

/-! ## Claim C5 -/

/-- A negative Python index `-k` with `1 ≤ k ≤ len(l)` resolves to list
position `len(l) - k`. -/
theorem pyGet_neg (l : List (Option Layer)) (k : Nat) (x : Option Layer)
    (h1 : 1 ≤ k) (h2 : k ≤ l.length)
    (h3 : l.get? (l.length - k) = some x) :
    pyGet l (-(k : Int)) = Except.ok x := by
  have hneg : ¬(0 ≤ -(k : Int)) := by omega
  have hpos : 0 ≤ (l.length : Int) + -(k : Int) := by omega
  have htn : ((l.length : Int) + -(k : Int)).toNat = l.length - k := by omega
  unfold pyGet pyIndex
  rw [if_neg hneg, if_pos hpos, htn]
  dsimp only
  rw [h3]

/-- Claim C5: a Route with a single negative index `-k` resolves to the
entry at materialized-list position `L - k` and makes it the new tail,
appending the existing entry itself (no new graph node is constructed); a
Route with more than one index appends a concatenation node whose inputs
are the referenced layers in exactly the declaration's listed order. -/
theorem claim_C5_route_resolution (st : BuildState) (name : String) :
    (∀ (k : Nat) (x : Option Layer),
        1 ≤ k → k ≤ st.allLayers.length →
        st.allLayers.get? (st.allLayers.length - k) = some x →
        processSection st (SectionDecl.route name [-(k : Int)])
          = StepResult.ok { st with allLayers := st.allLayers ++ [x],
                                    prevLayer := x })
  ∧ (∀ (ids : List Int) (o1 o2 : Option Layer) (os : List (Option Layer))
        (ls : List Layer),
        pyGetMany st.allLayers ids = Except.ok (o1 :: o2 :: os) →
        allSome (o1 :: o2 :: os) = some ls →
        processSection st (SectionDecl.route name ids)
          = StepResult.ok { st with
              allLayers := st.allLayers ++ [some (Layer.concatL ls)],
              prevLayer := some (Layer.concatL ls) })
  ∧ (∀ (i : Int) (x : Option Layer),
        pyGet st.allLayers i = Except.ok x →
        processSection st (SectionDecl.route name [i])
          = StepResult.ok { st with allLayers := st.allLayers ++ [x],
                                    prevLayer := x }) := by
  refine ⟨?_, ?_, ?_⟩
  · intro k x h1 h2 h3
    have hg := pyGet_neg st.allLayers k x h1 h2 h3
    simp only [processSection, pyGetMany, hg]
  · intro ids o1 o2 os ls hmany hsome
    simp only [processSection, hmany, hsome]
  · intro i x hget
    simp only [processSection, pyGetMany, hget]

/-- Concrete instance of claim C5 on a list of length 2: index `-2`
resolves to position 0, and a two-index Route `[1, 0]` concatenates in
exactly that (unsorted) order. -/
theorem claim_C5_witness :
    processSection routeDemoState (SectionDecl.route "route_0" [-(2 : Int)])
      = StepResult.ok { routeDemoState with
          allLayers := routeDemoState.allLayers ++ [some Layer.input],
          prevLayer := some Layer.input }
  ∧ processSection routeDemoState (SectionDecl.route "route_1" [1, 0])
      = StepResult.ok { routeDemoState with
          allLayers := routeDemoState.allLayers
            ++ [some (Layer.concatL [Layer.upSample 2 Layer.input, Layer.input])],
          prevLayer := some (Layer.concatL [Layer.upSample 2 Layer.input, Layer.input]) } :=
  ⟨(claim_C5_route_resolution routeDemoState "route_0").1 2 (some Layer.input)
      (by decide) (by decide) rfl,
   (claim_C5_route_resolution routeDemoState "route_1").2.1 [1, 0]
      (some (Layer.upSample 2 Layer.input)) (some Layer.input) []
      [Layer.upSample 2 Layer.input, Layer.input] rfl rfl⟩

/-! ## Claim C6 -/

/-- Claim C6: a convolutional section whose activation is neither
`linear` nor `leaky` aborts the whole run with the unsupported-activation
error naming the section, and no bytes are consumed from the weight
stream beyond the point of detection: the failing state's reads end with
that section's own bias/batch-normalize/kernel reads (which the source
performs before the activation check), and the run's outcome is
unchanged by whatever sections follow. -/
theorem claim_C6_unsupported_activation
    (pre post : List SectionDecl) (stp : BuildState) (prev : Layer)
    (name activation : String) (filters size stride pad : Nat) (bn : Bool)
    (hpre : runSections initState pre = StepResult.ok stp)
    (hprev : stp.prevLayer = some prev)
    (hleaky : activation ≠ "leaky") (hlinear : activation ≠ "linear") :
    runSections initState
        (pre ++ SectionDecl.convolutional name filters size stride pad activation bn :: post)
      = StepResult.err
          ("Unknown activation function `" ++ activation ++ "` in section " ++ name)
          { stp with
            reads := stp.reads ++ [filters * 4]
              ++ (if bn then [filters * 12] else [])
              ++ [size * size * channels prev * filters * 4],
            count := stp.count + filters
              + (if bn then 3 * filters else 0)
              + size * size * channels prev * filters }
  ∧ runSections initState
        (pre ++ SectionDecl.convolutional name filters size stride pad activation bn :: post)
      = runSections initState
          (pre ++ [SectionDecl.convolutional name filters size stride pad activation bn]) := by
  have hconv : processSection stp
        (SectionDecl.convolutional name filters size stride pad activation bn)
      = StepResult.err
          ("Unknown activation function `" ++ activation ++ "` in section " ++ name)
          { stp with
            reads := stp.reads ++ [filters * 4]
              ++ (if bn then [filters * 12] else [])
              ++ [size * size * channels prev * filters * 4],
            count := stp.count + filters
              + (if bn then 3 * filters else 0)
              + size * size * channels prev * filters } := by
    simp only [processSection, hprev]
    rw [if_pos ⟨hleaky, hlinear⟩]
  constructor
  · rw [runSections_append, hpre]
    simp only [runSections, hconv]
  · rw [runSections_append, hpre, runSections_append, hpre]
    simp only [runSections, hconv]

/-- Concrete instance of claim C6: `activation=sigmoid` in a conv section
after `[net]` aborts the run with the section named in the error, its
state holding exactly the net-plus-conv reads, and the trailing maxpool
section changes nothing about the outcome. -/
theorem claim_C6_witness :
    runSections initState
        ([SectionDecl.net "net_0"]
          ++ SectionDecl.convolutional "convolutional_0" 2 3 1 1 "sigmoid" false
            :: [SectionDecl.maxpool "maxpool_0" 2 2])
      = StepResult.err
          ("Unknown activation function `" ++ "sigmoid" ++ "` in section " ++ "convolutional_0")
          { initState with
            reads := initState.reads ++ [2 * 4]
              ++ (if false then [2 * 12] else [])
              ++ [3 * 3 * channels Layer.input * 2 * 4],
            count := initState.count + 2
              + (if false then 3 * 2 else 0)
              + 3 * 3 * channels Layer.input * 2 }
  ∧ runSections initState
        ([SectionDecl.net "net_0"]
          ++ SectionDecl.convolutional "convolutional_0" 2 3 1 1 "sigmoid" false
            :: [SectionDecl.maxpool "maxpool_0" 2 2])
      = runSections initState
          ([SectionDecl.net "net_0"]
            ++ [SectionDecl.convolutional "convolutional_0" 2 3 1 1 "sigmoid" false]) :=
  claim_C6_unsupported_activation [SectionDecl.net "net_0"]
    [SectionDecl.maxpool "maxpool_0" 2 2] initState Layer.input
    "convolutional_0" "sigmoid" 2 3 1 1 false rfl rfl (by decide) (by decide)

/-! ## Claim C7

The claim as frozen asserts that BOTH yolo and region sections record the
current tail index as an output and append a placeholder entry.  In the
source only the yolo branch (lines 304-309) does; the region branch
(lines 311-313) writes the anchors file and nothing else, so the claim
fails on any region section and is amended accordingly. -/

/-- Counterexample to claim C7 as stated: processing a region section from
the start state writes the anchors file but records no output index and
appends no placeholder entry — `out_index` and `all_layers` are exactly as
before. -/
theorem claim_C7_counterexample :
    processSection initState (SectionDecl.region "region_0" "0.5,1.0")
      = StepResult.ok { initState with anchorsFile := some "0.5,1.0" }
  ∧ ({ initState with anchorsFile := some "0.5,1.0" } : BuildState).outIndex
      = initState.outIndex
  ∧ ({ initState with anchorsFile := some "0.5,1.0" } : BuildState).allLayers
      = initState.allLayers :=
  ⟨rfl, rfl, rfl⟩

/-- Claim C7 amended: a Yolo section writes its anchor list to the anchors
file, records `len(all_layers) - 1` (the current tail's index) as a
network output and appends a placeholder (`none`) entry, consuming zero
bytes; a Region section only writes its anchor list to the anchors file,
also consuming zero bytes, with the layer list, output record, tail and
scalar count left untouched. -/
theorem claim_C7_yolo_region_effects (st : BuildState) (name anchors : String) :
    processSection st (SectionDecl.yolo name anchors)
      = StepResult.ok { st with
          anchorsFile := some anchors,
          outIndex := st.outIndex ++ [(st.allLayers.length : Int) - 1],
          allLayers := st.allLayers ++ [none],
          prevLayer := none }
  ∧ processSection st (SectionDecl.region name anchors)
      = StepResult.ok { st with anchorsFile := some anchors } :=
  ⟨rfl, rfl⟩

/-! ## Claim C8 -/

/-- Claim C8: once the section loop and output resolution succeed, the
conversion returns the saved artifact for ANY weight-file length; bytes
left unread beyond the consumed `headerLen + Σ reads` surface only as the
`unused weights` warning carrying the leftover byte count divided by 4,
and an exact-length file produces no warning — trailing bytes are never a
failure. -/
theorem claim_C8_trailing_bytes_warning
    (sections : List SectionDecl) (headerLen fileLen : Nat)
    (st : BuildState) (outs : List Layer)
    (hrun : runSections initState sections = StepResult.ok st)
    (houts : resolveOutputs st = Except.ok outs) :
    runConversion headerLen fileLen sections
      = Except.ok
          { finalState := st, outputs := outs, modelSaved := true,
            unusedWarning :=
              if fileLen - (headerLen + st.reads.sum) > 0
              then some (((fileLen - (headerLen + st.reads.sum) : Nat) : ℚ) / 4)
              else none }
  ∧ (∀ fl2 : Nat, exceptIsOk (runConversion headerLen fl2 sections) = true) := by
  constructor
  · simp only [runConversion, hrun, houts]
  · intro fl2
    simp only [runConversion, hrun, houts, exceptIsOk]

/-- Concrete instance of claim C8: a single maxpool network whose weight
file holds 4 bytes beyond the 16-byte header still converts, and warns
about 1 unused weight. -/
theorem claim_C8_witness :
    runConversion 16 20 [SectionDecl.maxpool "maxpool_0" 2 2]
      = Except.ok
          { finalState :=
              { allLayers := [some (Layer.maxPool 2 2 Layer.input)],
                prevLayer := some (Layer.maxPool 2 2 Layer.input),
                outIndex := [], count := 0, reads := [], anchorsFile := none },
            outputs := [Layer.maxPool 2 2 Layer.input], modelSaved := true,
            unusedWarning :=
              if 20 - (16 + List.sum ([] : List Nat)) > 0
              then some (((20 - (16 + List.sum ([] : List Nat)) : Nat) : ℚ) / 4)
              else none }
  ∧ (∀ fl2 : Nat,
      exceptIsOk (runConversion 16 fl2 [SectionDecl.maxpool "maxpool_0" 2 2]) = true) :=
  claim_C8_trailing_bytes_warning [SectionDecl.maxpool "maxpool_0" 2 2] 16 20
    { allLayers := [some (Layer.maxPool 2 2 Layer.input)],
      prevLayer := some (Layer.maxPool 2 2 Layer.input),
      outIndex := [], count := 0, reads := [], anchorsFile := none }
    [Layer.maxPool 2 2 Layer.input] rfl rfl

/-! ## Claim C9 -/

/-- Claim C9: after a yolo section the current tail is the `None`
placeholder itself, so every following section kind that consumes the
tail — convolutional, maxpool, avgpool, reorg, shortcut, upsample —
fails; region / net / cost / softmax leave the tail as-is and another
yolo leaves it `None` again, while a Route whose index resolves to a real
layer re-establishes a usable tail. -/
theorem claim_C9_yolo_tail_unusable
    (st : BuildState) (name anchors : String) (y : BuildState)
    (hy : processSection st (SectionDecl.yolo name anchors) = StepResult.ok y) :
    y.prevLayer = none
  ∧ (∀ (n2 act : String) (f s str p : Nat) (bn : Bool),
        (processSection y (SectionDecl.convolutional n2 f s str p act bn)).isErr = true)
  ∧ (∀ (n2 : String) (s str : Nat),
        (processSection y (SectionDecl.maxpool n2 s str)).isErr = true)
  ∧ (∀ n2 : String, (processSection y (SectionDecl.avgpool n2 [])).isErr = true)
  ∧ (∀ n2 : String, (processSection y (SectionDecl.reorg n2 2)).isErr = true)
  ∧ (∀ (n2 : String) (i : Int),
        (processSection y (SectionDecl.shortcut n2 i "linear")).isErr = true)
  ∧ (∀ n2 : String, (processSection y (SectionDecl.upsample n2 2)).isErr = true)
  ∧ (∀ (n2 a2 : String),
        processSection y (SectionDecl.region n2 a2)
          = StepResult.ok { y with anchorsFile := some a2 })
  ∧ (∀ n2 : String,
        processSection y (SectionDecl.net n2) = StepResult.ok y
      ∧ processSection y (SectionDecl.cost n2) = StepResult.ok y
      ∧ processSection y (SectionDecl.softmax n2) = StepResult.ok y)
  ∧ (∀ (n2 a2 : String) (y2 : BuildState),
        processSection y (SectionDecl.yolo n2 a2) = StepResult.ok y2 →
        y2.prevLayer = none)
  ∧ (∀ (n2 : String) (i : Int) (l : Layer),
        pyGet y.allLayers i = Except.ok (some l) →
        processSection y (SectionDecl.route n2 [i])
          = StepResult.ok { y with allLayers := y.allLayers ++ [some l],
                                   prevLayer := some l }) := by
  have hrec : ({ st with
      anchorsFile := some anchors,
      outIndex := st.outIndex ++ [(st.allLayers.length : Int) - 1],
      allLayers := st.allLayers ++ [none],
      prevLayer := none } : BuildState) = y := by
    have h2 := hy
    simp only [processSection, StepResult.ok.injEq] at h2
    exact h2
  subst hrec
  refine ⟨rfl, ?_, ?_, ?_, ?_, ?_, ?_, ?_, ?_, ?_, ?_⟩
  · intro n2 act f s str p bn; rfl
  · intro n2 s str; rfl
  · intro n2; rfl
  · intro n2; rfl
  · intro n2 i
    simp only [processSection]
    rw [if_neg (by decide)]
    split
    · rfl
    · rfl
    · rfl
  · intro n2; rfl
  · intro n2 a2; rfl
  · intro n2; exact ⟨rfl, rfl, rfl⟩
  · intro n2 a2 y2 h2
    simp only [processSection, StepResult.ok.injEq] at h2
    subst h2
    rfl
  · intro n2 i l hget
    simp only [processSection, pyGetMany, hget]

/-- Concrete instance of claim C9: after a yolo section the tail is the
placeholder, a following convolutional or maxpool section fails, and a
route back to layer 0 restores a usable tail. -/
theorem claim_C9_witness :
    yoloAfterState.prevLayer = none
  ∧ (processSection yoloAfterState
        (SectionDecl.convolutional "convolutional_1" 2 3 1 1 "linear" false)).isErr = true
  ∧ (processSection yoloAfterState (SectionDecl.maxpool "maxpool_0" 2 2)).isErr = true
  ∧ processSection yoloAfterState (SectionDecl.route "route_0" [0])
      = StepResult.ok { yoloAfterState with
          allLayers := yoloAfterState.allLayers ++ [some Layer.input],
          prevLayer := some Layer.input } := by
  obtain ⟨h1, h2, h3, _, _, _, _, _, _, _, h11⟩ :=
    claim_C9_yolo_tail_unusable preYoloState "yolo_0" "10,13" yoloAfterState rfl
  exact ⟨h1, h2 "convolutional_1" "linear" 2 3 1 1 false, h3 "maxpool_0" 2 2,
    h11 "route_0" 0 Layer.input rfl⟩

/-! ## Claim C10 -/

/-- One successful section step rewrites the anchors file to the section's
own anchor list when the section is a yolo or region, and leaves it alone
otherwise — the source opens the file in truncating `w` mode each time. -/
theorem processSection_anchorsFile (st : BuildState) (s : SectionDecl)
    (st2 : BuildState) (h : processSection st s = StepResult.ok st2) :
    st2.anchorsFile = (anchorsOf s).or st.anchorsFile := by
  cases s <;> simp only [processSection] at h <;> repeat' split at h
  all_goals
    first
      | exact StepResult.noConfusion h
      | (injection h with he; subst he; simp [anchorsOf, Option.or])

/-- Over a whole successful run, the final anchors-file content is the
last yolo/region section's anchor list, or the starting content if there
is none. -/
theorem runSections_anchorsFile :
    ∀ (sections : List SectionDecl) (st0 st : BuildState),
      runSections st0 sections = StepResult.ok st →
      st.anchorsFile = ((sections.filterMap anchorsOf).getLast?).or st0.anchorsFile := by
  intro sections
  induction sections with
  | nil =>
    intro st0 st h
    injection h with he
    subst he
    rfl
  | cons s rest ih =>
    intro st0 st h
    simp only [runSections] at h
    cases hp : processSection st0 s with
    | err m s2 => rw [hp] at h; exact StepResult.noConfusion h
    | ok st1 =>
      rw [hp] at h
      have h1 := ih st1 st h
      have h2 := processSection_anchorsFile st0 s st1 hp
      rw [h1, h2]
      cases ha : anchorsOf s with
      | none => simp [List.filterMap_cons, ha, Option.or]
      | some a =>
        simp only [List.filterMap_cons, ha]
        cases hr : (rest.filterMap anchorsOf) with
        | nil => rfl
        | cons b t =>
          rw [List.getLast?_cons_cons]
          cases hg : (b :: t).getLast? with
          | none => simp [List.getLast?] at hg
          | some c => rfl

/-- Claim C10: each yolo/region section truncates and rewrites the anchors
file with only its own anchor list, so after a successful run over a
config whose yolo/region sections exist, the file's final content is
exactly the anchor list of the last such section in declaration order;
earlier sections' lists are discarded. -/
theorem claim_C10_last_anchors_win
    (sections : List SectionDecl) (st : BuildState) (a : String)
    (hrun : runSections initState sections = StepResult.ok st)
    (hlast : (sections.filterMap anchorsOf).getLast? = some a) :
    st.anchorsFile = some a := by
  rw [runSections_anchorsFile sections initState st hrun, hlast]
  rfl

/-- Concrete instance of claim C10: a yolo section writing `1,2` followed
by a region section writing `3,4` leaves the anchors file holding only
`3,4`. -/
theorem claim_C10_witness :
    ({ allLayers := [none], prevLayer := none, outIndex := [-1],
       count := 0, reads := [], anchorsFile := some "3,4" } : BuildState).anchorsFile
      = some "3,4" :=
  claim_C10_last_anchors_win
    [SectionDecl.yolo "yolo_0" "1,2", SectionDecl.region "region_0" "3,4"]
    { allLayers := [none], prevLayer := none, outIndex := [-1],
      count := 0, reads := [], anchorsFile := some "3,4" }
    "3,4" rfl rfl

/-! ## Claim C4 -/

/-- Position-wise behaviour of the uniquification pass on header lines:
the header at position `n` with base name `X` is renamed by appending
`_` and the current counter value plus the number of earlier `X`
headers. -/
theorem uniquifyLines_header_get :
    ∀ (lines : List CfgLine) (counters : String → Nat) (n : Nat) (X : String),
      lines.get? n = some (CfgLine.header X) →
      (uniquifyLines counters lines).get? n
        = some (CfgLine.header
            (X ++ "_" ++ toString (counters X + occCount X (lines.take n)))) := by
  intro lines
  induction lines with
  | nil => intro counters n X h; simp at h
  | cons l rest ih =>
    intro counters n X h
    cases n with
    | zero =>
      cases l with
      | content t => simp [List.get?_cons_zero] at h
      | header m =>
        rw [List.get?_cons_zero] at h
        injection h with he
        injection he with hm
        subst hm
        simp [uniquifyLines, occCount, List.get?_cons_zero]
    | succ n =>
      cases l with
      | content t =>
        rw [List.get?_cons_succ] at h
        have hih := ih counters n X h
        simp only [uniquifyLines, List.get?_cons_succ]
        rw [hih]
        simp only [List.take_succ_cons, occCount]
      | header m =>
        rw [List.get?_cons_succ] at h
        have hih := ih (fun s => if s = m then counters m + 1 else counters s) n X h
        simp only [uniquifyLines, List.get?_cons_succ]
        rw [hih]
        simp only [List.take_succ_cons, occCount]
        have harith : (if X = m then counters m + 1 else counters X)
              + occCount X (rest.take n)
            = counters X + ((if m = X then 1 else 0) + occCount X (rest.take n)) := by
          by_cases hxm : X = m
          · subst hxm
            rw [if_pos rfl, if_pos rfl]
            omega
          · rw [if_neg hxm, if_neg (fun h2 => hxm h2.symm)]
            omega
        rw [harith]

/-- The uniquification pass copies every non-header line through
unchanged, at its original position. -/
theorem uniquifyLines_content_get :
    ∀ (lines : List CfgLine) (counters : String → Nat) (n : Nat) (t : String),
      lines.get? n = some (CfgLine.content t) →
      (uniquifyLines counters lines).get? n = some (CfgLine.content t) := by
  intro lines
  induction lines with
  | nil => intro counters n t h; simp at h
  | cons l rest ih =>
    intro counters n t h
    cases n with
    | zero =>
      cases l with
      | content u =>
        rw [List.get?_cons_zero] at h
        injection h with he
        injection he with hu
        subst hu
        simp [uniquifyLines, List.get?_cons_zero]
      | header m => simp [List.get?_cons_zero] at h
    | succ n =>
      cases l with
      | content u =>
        rw [List.get?_cons_succ] at h
        have hih := ih counters n t h
        simp only [uniquifyLines, List.get?_cons_succ]
        exact hih
      | header m =>
        rw [List.get?_cons_succ] at h
        have hih := ih (fun s => if s = m then counters m + 1 else counters s) n t h
        simp only [uniquifyLines, List.get?_cons_succ]
        exact hih

/-- The uniquification pass changes no grouped content: folding the
section-grouping step over the uniquified lines yields the same pending
contents and, section for section, the same content lists. -/
theorem uniquifyLines_parse :
    ∀ (lines : List CfgLine) (counters : String → Nat),
      ((uniquifyLines counters lines).foldr parseStep ([], [])).1
        = (lines.foldr parseStep ([], [])).1
      ∧ ((uniquifyLines counters lines).foldr parseStep ([], [])).2.map Prod.snd
        = (lines.foldr parseStep ([], [])).2.map Prod.snd := by
  intro lines
  induction lines with
  | nil => intro counters; exact ⟨rfl, rfl⟩
  | cons l rest ih =>
    intro counters
    cases l with
    | content t =>
      have hih := ih counters
      simp only [uniquifyLines, List.foldr_cons, parseStep]
      exact ⟨by rw [hih.1], hih.2⟩
    | header m =>
      have hih := ih (fun s => if s = m then counters m + 1 else counters s)
      simp only [uniquifyLines, List.foldr_cons, parseStep]
      refine ⟨by simp, ?_⟩
      simp only [List.map_cons]
      rw [hih.1, hih.2]

/-- Claim C4: the uniquification pass renames the header at each position
`n` with base name `X` to `X_j` where `j` is the zero-based count of
earlier `X` headers — so `N` sections sharing base `X` become exactly
`X_0 … X_(N-1)` in original file order — while every non-header line is
copied through unchanged at its position, and regrouping the uniquified
lines into sections yields the identical per-section content as the
original. -/
theorem claim_C4_section_uniquification (lines : List CfgLine) :
    (∀ (n : Nat) (X : String),
        lines.get? n = some (CfgLine.header X) →
        (unique_config_sections lines).get? n
          = some (CfgLine.header
              (X ++ "_" ++ toString (occCount X (lines.take n)))))
  ∧ (∀ (n : Nat) (t : String),
        lines.get? n = some (CfgLine.content t) →
        (unique_config_sections lines).get? n = some (CfgLine.content t))
  ∧ (parseSections (unique_config_sections lines)).map Prod.snd
      = (parseSections lines).map Prod.snd := by
  refine ⟨?_, ?_, ?_⟩
  · intro n X h
    have hh := uniquifyLines_header_get lines (fun _ => 0) n X h
    simpa using hh
  · intro n t h
    exact uniquifyLines_content_get lines (fun _ => 0) n t h
  · exact (uniquifyLines_parse lines (fun _ => 0)).2

/-- Concrete instance of claim C4: the two `convolutional` sections of
`cfgDemo` become `convolutional_0` and `convolutional_1` in order, the
`filters=16` line is untouched, and regrouping preserves all content. -/
theorem claim_C4_witness :
    (unique_config_sections cfgDemo).get? 2
      = some (CfgLine.header
          ("convolutional" ++ "_" ++ toString (occCount "convolutional" (cfgDemo.take 2))))
  ∧ (unique_config_sections cfgDemo).get? 4
      = some (CfgLine.header
          ("convolutional" ++ "_" ++ toString (occCount "convolutional" (cfgDemo.take 4))))
  ∧ (unique_config_sections cfgDemo).get? 3 = some (CfgLine.content "filters=16")
  ∧ (parseSections (unique_config_sections cfgDemo)).map Prod.snd
      = (parseSections cfgDemo).map Prod.snd :=
  ⟨(claim_C4_section_uniquification cfgDemo).1 2 "convolutional" rfl,
   (claim_C4_section_uniquification cfgDemo).1 4 "convolutional" rfl,
   (claim_C4_section_uniquification cfgDemo).2.1 3 "filters=16" rfl,
   (claim_C4_section_uniquification cfgDemo).2.2⟩
